import Mathlib

/-!
Verification of the task-management API in `src/main.py` (FastAPI + SQLAlchemy).

The store backend (a SQLite table `tarefas` with columns id, nome, descricao,
concluida, with a unique index on `nome`) is modelled as a list of records in
insertion (rowid) order.  The four HTTP handlers are shallowly embedded as
pure functions from a store to a result paired with the successor store; a
raised HTTPException becomes an `Except.error` carrying the status code,
detail message and extra headers.  SQLAlchemy's `order_by` on a column is
modelled as a stable sort (`List.mergeSort`) by that column, and
`offset`/`limit` as `List.drop`/`List.take`.  Credential hashing
(`passlib` bcrypt) is an external black box: it is modelled by an
environment carrying the verifier function and the stored admin hash,
with its contract stated as a hypothesis where a theorem needs it.
-/

/-- An HTTPException raised by a handler: status code, detail message,
    and any extra response headers. -/
structure HTTPError where
  status : Nat
  detail : String
  headers : List (String × String) := []
deriving Repr, DecidableEq

/-- A row of the `tarefas` table (class `TarefaDB` in `src/main.py`):
    surrogate integer primary key `id`, unique `nome`, `descricao`,
    and the completion flag `concluida`. -/
structure TarefaDB where
  id : Nat
  nome : String
  descricao : String
  concluida : Bool
deriving Repr, DecidableEq

/-- The request body model (pydantic class `Tarefa` in `src/main.py`):
    `concluida` defaults to `false` when omitted. -/
structure Tarefa where
  nome : String
  descricao : String
  concluida : Bool := false
deriving Repr, DecidableEq

/-- The task table, in insertion (rowid) order. -/
abbrev Store := List TarefaDB

/-- The surrogate id SQLite assigns to a newly inserted row:
    one more than the largest id in the table. -/
def nextId (db : Store) : Nat := (db.map TarefaDB.id).foldr max 0 + 1

/-- The row inserted by a successful create call for body `tarefa`
    (line 77 of `src/main.py`). -/
def novaTarefa (db : Store) (tarefa : Tarefa) : TarefaDB :=
  ⟨nextId db, tarefa.nome, tarefa.descricao, tarefa.concluida⟩

/-- The 400 error raised for a duplicate name (line 74 of `src/main.py`). -/
def duplicateError : HTTPError := ⟨400, "Tarefa com este nome já existe", []⟩

/-- Handler of POST /tarefas/ (`adicionar_tarefa`, lines 69-81): reject a
    duplicated name with 400, otherwise insert the new row and return it. -/
def adicionar_tarefa (tarefa : Tarefa) (db : Store) :
    Except HTTPError TarefaDB × Store :=
  match db.find? (fun t => t.nome == tarefa.nome) with
  | some _ => (.error duplicateError, db)
  | none => (.ok (novaTarefa db tarefa), db ++ [novaTarefa db tarefa])

/-- Lexicographic comparison of character lists by code point, modelling
    the SQLite BINARY collation used by `ORDER BY` on a TEXT column
    (byte order of UTF-8 agrees with code-point order). -/
def lexLe : List Char → List Char → Bool
  | [], _ => true
  | _ :: _, [] => false
  | a :: as, b :: bs =>
      if a.toNat < b.toNat then true
      else if b.toNat < a.toNat then false
      else lexLe as bs

/-- Lexicographic string comparison (SQLite TEXT ordering). -/
def strLe (a b : String) : Bool := lexLe a.data b.data

/-- Column order used by `order_by(TarefaDB.nome)`: ascending by name. -/
def leNome (a b : TarefaDB) : Bool := strLe a.nome b.nome

/-- Column order used by `order_by(TarefaDB.descricao)`: ascending by
    description. -/
def leDescricao (a b : TarefaDB) : Bool := strLe a.descricao b.descricao

/-- Column order used by `order_by(TarefaDB.concluida)`: ascending with
    false (0) before true (1). -/
def leConcluida (a b : TarefaDB) : Bool := !a.concluida || b.concluida

/-- The `order_by` dispatch of `listar_tarefas` (lines 97-104): a stable
    ascending sort by the chosen column; any other string applies no
    ordering (unreachable behind the endpoint's regex validation). -/
def ordenar (sort_by : String) (db : Store) : Store :=
  if sort_by == "nome" then db.mergeSort leNome
  else if sort_by == "descricao" then db.mergeSort leDescricao
  else if sort_by == "concluida" then db.mergeSort leConcluida
  else db

/-- The 400 error raised for page < 1 (line 93 of `src/main.py`). -/
def invalidPageError : HTTPError :=
  ⟨400, "O número da página deve ser maior que 0", []⟩

/-- The 400 error raised for size outside [1,100] (line 95). -/
def invalidSizeError : HTTPError :=
  ⟨400, "O tamanho da página deve estar entre 1 e 100", []⟩

/-- Handler of GET /tarefas/ (`listar_tarefas`, lines 83-110): validate
    page and size, sort by the chosen column, and return the requested
    window via offset/limit.  The handler never mutates the store, so the
    successor store is the input store. -/
def listar_tarefas (page size : Int) (sort_by : String) (db : Store) :
    Except HTTPError (List TarefaDB) × Store :=
  if page < 1 then (.error invalidPageError, db)
  else if size < 1 ∨ 100 < size then (.error invalidSizeError, db)
  else
    let start_idx := ((page - 1) * size).toNat
    (.ok (((ordenar sort_by db).drop start_idx).take size.toNat), db)

/-- The 404 error raised when no task has the requested name
    (lines 116 and 127 of `src/main.py`). -/
def notFoundError : HTTPError := ⟨404, "Tarefa não encontrada", []⟩

/-- The mutation performed by `marcar_concluida`: set `concluida = True`. -/
def setConcluida (t : TarefaDB) : TarefaDB := { t with concluida := true }

/-- Apply `f` to the first element satisfying `p`, as the ORM mutates the
    single row returned by `.first()`. -/
def updateFirst (p : TarefaDB → Bool) (f : TarefaDB → TarefaDB) :
    Store → Store
  | [] => []
  | t :: ts => if p t then f t :: ts else t :: updateFirst p f ts

/-- Handler of PUT /tarefas/\x7bnome_tarefa\x7d (`marcar_concluida`,
    lines 112-121): 404 when the name is absent, otherwise set
    `concluida = True` on the found row and return it. -/
def marcar_concluida (nome_tarefa : String) (db : Store) :
    Except HTTPError TarefaDB × Store :=
  match db.find? (fun t => t.nome == nome_tarefa) with
  | none => (.error notFoundError, db)
  | some t =>
      (.ok (setConcluida t),
       updateFirst (fun u => u.nome == nome_tarefa) setConcluida db)

/-- The JSON body returned by a successful delete (line 131). -/
structure Detail where
  detail : String
deriving Repr, DecidableEq

/-- Handler of DELETE /tarefas/\x7bnome_tarefa\x7d (`remover_tarefa`,
    lines 123-131): 404 when the name is absent, otherwise delete the
    found row and return a fixed confirmation message. -/
def remover_tarefa (nome_tarefa : String) (db : Store) :
    Except HTTPError Detail × Store :=
  match db.find? (fun t => t.nome == nome_tarefa) with
  | none => (.error notFoundError, db)
  | some _ =>
      (.ok ⟨"Tarefa removida com sucesso"⟩,
       db.eraseP (fun t => t.nome == nome_tarefa))

/-- A stored user record (the values of `USERS_DB` in `src/main.py`). -/
structure UserRec where
  username : String
  hashed_password : String
deriving Repr, DecidableEq

/-- The external passlib context: the verifier function
    `pwd_context.verify(password, hash)` and the stored hash
    `pwd_context.hash("admin123")` computed at startup. -/
structure AuthEnv where
  pwd_verify : String → String → Bool
  admin_hash : String

/-- The fixed in-code user table (lines 51-56): exactly one account,
    `admin`, whose stored hash is the bcrypt hash of `admin123`. -/
def USERS_DB (env : AuthEnv) (username : String) : Option UserRec :=
  if username == "admin" then some ⟨"admin", env.admin_hash⟩ else none

/-- The 401 raised on authentication failure (lines 62-66), carrying the
    WWW-Authenticate challenge header. -/
def unauthorizedError : HTTPError :=
  ⟨401, "Credenciais inválidas", [("WWW-Authenticate", "Basic")]⟩

/-- `verify_credentials` (lines 59-67), composed with the HTTPBasic
    dependency: a missing credential header, an unknown username, or a
    password that does not verify against the stored hash is rejected
    with the 401 challenge; otherwise the username is returned. -/
def verify_credentials (env : AuthEnv)
    (credentials : Option (String × String)) : Except HTTPError String :=
  match credentials with
  | none => .error unauthorizedError
  | some (username, password) =>
      match USERS_DB env username with
      | none => .error unauthorizedError
      | some user =>
          if env.pwd_verify password user.hashed_password then .ok username
          else .error unauthorizedError

/-- POST /tarefas/ as exposed: the `verify_credentials` dependency runs
    before the handler body, so a rejected request leaves the store
    untouched. -/
def post_tarefas (env : AuthEnv) (credentials : Option (String × String))
    (tarefa : Tarefa) (db : Store) : Except HTTPError TarefaDB × Store :=
  match verify_credentials env credentials with
  | .error e => (.error e, db)
  | .ok _ => adicionar_tarefa tarefa db

/-- GET /tarefas/ as exposed, behind `verify_credentials`. -/
def get_tarefas (env : AuthEnv) (credentials : Option (String × String))
    (page size : Int) (sort_by : String) (db : Store) :
    Except HTTPError (List TarefaDB) × Store :=
  match verify_credentials env credentials with
  | .error e => (.error e, db)
  | .ok _ => listar_tarefas page size sort_by db

/-- PUT /tarefas/\x7bnome_tarefa\x7d as exposed, behind
    `verify_credentials`. -/
def put_tarefas (env : AuthEnv) (credentials : Option (String × String))
    (nome_tarefa : String) (db : Store) : Except HTTPError TarefaDB × Store :=
  match verify_credentials env credentials with
  | .error e => (.error e, db)
  | .ok _ => marcar_concluida nome_tarefa db

/-- DELETE /tarefas/\x7bnome_tarefa\x7d as exposed, behind
    `verify_credentials`. -/
def delete_tarefas (env : AuthEnv) (credentials : Option (String × String))
    (nome_tarefa : String) (db : Store) : Except HTTPError Detail × Store :=
  match verify_credentials env credentials with
  | .error e => (.error e, db)
  | .ok _ => remover_tarefa nome_tarefa db

/-- The store states reachable from the empty store through the four
    operations (List never changes the store, but is included as a step
    for completeness). -/
inductive Reachable : Store → Prop where
  | empty : Reachable []
  | create (tarefa : Tarefa) (db : Store) :
      Reachable db → Reachable (adicionar_tarefa tarefa db).2
  | list (page size : Int) (sort_by : String) (db : Store) :
      Reachable db → Reachable (listar_tarefas page size sort_by db).2
  | complete (nome_tarefa : String) (db : Store) :
      Reachable db → Reachable (marcar_concluida nome_tarefa db).2
  | delete (nome_tarefa : String) (db : Store) :
      Reachable db → Reachable (remover_tarefa nome_tarefa db).2

theorem lexLe_refl : ∀ as, lexLe as as = true
  | [] => rfl
  | a :: as => by simp [lexLe, Nat.lt_irrefl, lexLe_refl as]

theorem lexLe_total : ∀ as bs, (lexLe as bs || lexLe bs as) = true
  | [], bs => by simp [lexLe]
  | a :: as, [] => by simp [lexLe]
  | a :: as, b :: bs => by
      rcases Nat.lt_trichotomy a.toNat b.toNat with h | h | h
      · simp [lexLe, h]
      · have h1 : ¬ a.toNat < b.toNat := by omega
        have h2 : ¬ b.toNat < a.toNat := by omega
        simp only [lexLe, h1, h2, if_false]
        exact lexLe_total as bs
      · simp [lexLe, h]

theorem lexLe_trans : ∀ as bs cs, lexLe as bs = true → lexLe bs cs = true →
    lexLe as cs = true
  | [], _, _, _, _ => rfl
  | _ :: _, [], _, h1, _ => by simp [lexLe] at h1
  | _ :: _, _ :: _, [], _, h2 => by simp [lexLe] at h2
  | a :: as, b :: bs, c :: cs, h1, h2 => by
      simp only [lexLe] at h1 h2 ⊢
      rcases Nat.lt_trichotomy a.toNat b.toNat with hab | hab | hab <;>
        rcases Nat.lt_trichotomy b.toNat c.toNat with hbc | hbc | hbc
      · simp [show a.toNat < c.toNat by omega]
      · simp [show a.toNat < c.toNat by omega]
      · simp [hbc, show ¬ b.toNat < c.toNat by omega] at h2
      · simp [show a.toNat < c.toNat by omega]
      · have g1 : ¬ a.toNat < c.toNat := by omega
        have g2 : ¬ c.toNat < a.toNat := by omega
        simp only [g1, g2, if_false]
        simp only [show ¬ a.toNat < b.toNat by omega,
          show ¬ b.toNat < a.toNat by omega, if_false] at h1
        simp only [show ¬ b.toNat < c.toNat by omega,
          show ¬ c.toNat < b.toNat by omega, if_false] at h2
        exact lexLe_trans as bs cs h1 h2
      · simp [show ¬ b.toNat < c.toNat by omega, hbc] at h2
      · simp [hab, show ¬ a.toNat < b.toNat by omega] at h1
      · simp [hab, show ¬ a.toNat < b.toNat by omega] at h1
      · simp [hab, show ¬ a.toNat < b.toNat by omega] at h1

theorem strLe_refl (a : String) : strLe a a = true := lexLe_refl a.data

theorem strLe_total (a b : String) : (strLe a b || strLe b a) = true :=
  lexLe_total a.data b.data

theorem strLe_trans {a b c : String} (h1 : strLe a b = true)
    (h2 : strLe b c = true) : strLe a c = true :=
  lexLe_trans a.data b.data c.data h1 h2

theorem leNome_trans : ∀ a b c : TarefaDB, leNome a b = true →
    leNome b c = true → leNome a c = true :=
  fun _ _ _ h1 h2 => strLe_trans h1 h2

theorem leNome_total : ∀ a b : TarefaDB, (leNome a b || leNome b a) = true :=
  fun a b => strLe_total a.nome b.nome

theorem leDescricao_trans : ∀ a b c : TarefaDB, leDescricao a b = true →
    leDescricao b c = true → leDescricao a c = true :=
  fun _ _ _ h1 h2 => strLe_trans h1 h2

theorem leDescricao_total : ∀ a b : TarefaDB,
    (leDescricao a b || leDescricao b a) = true :=
  fun a b => strLe_total a.descricao b.descricao

theorem leConcluida_trans : ∀ a b c : TarefaDB, leConcluida a b = true →
    leConcluida b c = true → leConcluida a c = true := by
  intro a b c h1 h2
  simp only [leConcluida, Bool.or_eq_true, Bool.not_eq_true'] at *
  rcases h1 with h1 | h1 <;> rcases h2 with h2 | h2
  · simp [h1]
  · simp [h2]
  · rw [h1] at h2; simp at h2
  · simp [h2]

theorem leConcluida_total : ∀ a b : TarefaDB,
    (leConcluida a b || leConcluida b a) = true := by
  intro a b
  simp only [leConcluida]
  cases a.concluida <;> cases b.concluida <;> simp

theorem mem_ordenar {t : TarefaDB} {sort_by : String} {db : Store} :
    t ∈ ordenar sort_by db ↔ t ∈ db := by
  unfold ordenar
  split_ifs <;> simp [List.mem_mergeSort]

theorem length_ordenar (sort_by : String) (db : Store) :
    (ordenar sort_by db).length = db.length := by
  unfold ordenar
  split_ifs <;> simp [List.length_mergeSort]

theorem updateFirst_map_nome (n : String) : ∀ db : Store,
    (updateFirst (fun u => u.nome == n) setConcluida db).map TarefaDB.nome
      = db.map TarefaDB.nome
  | [] => rfl
  | t :: ts => by
      by_cases h : t.nome == n
      · simp [updateFirst, h, setConcluida]
      · simp [updateFirst, h, updateFirst_map_nome n ts]

theorem updateFirst_idem (n : String) : ∀ db : Store,
    updateFirst (fun u => u.nome == n) setConcluida
        (updateFirst (fun u => u.nome == n) setConcluida db)
      = updateFirst (fun u => u.nome == n) setConcluida db
  | [] => rfl
  | t :: ts => by
      by_cases h : t.nome == n
      · have h2 : (setConcluida t).nome == n := by simp [setConcluida]; simpa using h
        simp [updateFirst, h, h2, setConcluida]
      · simp [updateFirst, h, updateFirst_idem n ts]

theorem find?_updateFirst (n : String) : ∀ (db : Store) (t : TarefaDB),
    db.find? (fun u => u.nome == n) = some t →
    (updateFirst (fun u => u.nome == n) setConcluida db).find?
        (fun u => u.nome == n) = some (setConcluida t)
  | [], t, h => by simp at h
  | a :: ts, t, h => by
      by_cases ha : a.nome == n
      · have h2 : (setConcluida a).nome == n := by simpa [setConcluida] using ha
        simp only [List.find?_cons, ha, cond_true] at h
        cases h
        simp [updateFirst, ha, List.find?_cons, h2]
      · simp only [List.find?_cons, ha] at h
        simp only [updateFirst, ha, Bool.false_eq_true, if_false, List.find?_cons]
        exact find?_updateFirst n ts t h

theorem eraseP_nome_ne (n : String) : ∀ db : Store,
    (db.map TarefaDB.nome).Nodup →
    ∀ t ∈ db.eraseP (fun u => u.nome == n), t.nome ≠ n
  | [], _, t, ht => by simp at ht
  | a :: ts, hnd, t, ht => by
      rw [List.map_cons, List.nodup_cons] at hnd
      by_cases ha : a.nome == n
      · simp only [List.eraseP_cons, ha, cond_true] at ht
        intro he
        have hm : a.nome ∈ ts.map TarefaDB.nome := by
          rw [List.mem_map]
          refine ⟨t, ht, ?_⟩
          rw [he]
          exact (eq_of_beq ha).symm
        exact hnd.1 hm
      · simp only [List.eraseP_cons, ha, cond_false] at ht
        rcases List.mem_cons.mp ht with h | h
        · subst h; simpa using ha
        · exact eraseP_nome_ne n ts hnd.2 t h

theorem find?_nome_eq_none {n : String} {db : Store}
    (h : ∀ t ∈ db, t.nome ≠ n) :
    db.find? (fun u => u.nome == n) = none :=
  List.find?_eq_none.mpr (fun t ht => by simpa using h t ht)

theorem listar_tarefas_snd (page size : Int) (sort_by : String) (db : Store) :
    (listar_tarefas page size sort_by db).2 = db := by
  unfold listar_tarefas
  split_ifs <;> rfl

/-- C2: name uniqueness is an invariant of every store reachable from the
    empty store through the four operations. -/
theorem reachable_nodup (db : Store) (h : Reachable db) :
    (db.map TarefaDB.nome).Nodup := by
  induction h with
  | empty => simp
  | create tarefa db0 _ ih =>
      cases hf : db0.find? (fun t => t.nome == tarefa.nome) with
      | some t => simpa [adicionar_tarefa, hf] using ih
      | none =>
          have hnotin : tarefa.nome ∉ db0.map TarefaDB.nome := by
            rw [List.mem_map]
            rintro ⟨t, ht, he⟩
            exact absurd (by simpa using he) (by simpa using List.find?_eq_none.mp hf t ht)
          simp only [adicionar_tarefa, hf, List.map_append, List.map_cons,
            List.map_nil, novaTarefa]
          rw [List.nodup_append]
          refine ⟨ih, by simp, ?_⟩
          intro a ha hb
          simp only [List.mem_cons, List.not_mem_nil, or_false] at hb
          subst hb
          exact hnotin ha
  | list page size sort_by db0 _ ih =>
      rwa [listar_tarefas_snd]
  | complete nome_tarefa db0 _ ih =>
      cases hf : db0.find? (fun t => t.nome == nome_tarefa) with
      | none => simpa [marcar_concluida, hf] using ih
      | some t =>
          simp only [marcar_concluida, hf]
          rwa [updateFirst_map_nome]
  | delete nome_tarefa db0 _ ih =>
      cases hf : db0.find? (fun t => t.nome == nome_tarefa) with
      | none => simpa [remover_tarefa, hf] using ih
      | some t =>
          simp only [remover_tarefa, hf]
          exact ((List.eraseP_sublist db0).map TarefaDB.nome).nodup ih

/-- C1: creating a task whose name already exists fails with the 400
    duplicate-name error and leaves the store (hence the existing record)
    unchanged; creating a fresh name inserts the record, which is then
    visible to subsequent List, Complete and Delete calls. -/
theorem adicionar_tarefa_spec (db : Store) (tarefa : Tarefa) :
    ((∃ t ∈ db, t.nome = tarefa.nome) →
      adicionar_tarefa tarefa db = (Except.error duplicateError, db)
        ∧ duplicateError.status = 400)
  ∧ ((∀ t ∈ db, t.nome ≠ tarefa.nome) →
      adicionar_tarefa tarefa db
          = (Except.ok (novaTarefa db tarefa), db ++ [novaTarefa db tarefa])
      ∧ novaTarefa db tarefa ∈ (adicionar_tarefa tarefa db).2
      ∧ (marcar_concluida tarefa.nome (adicionar_tarefa tarefa db).2).1
          = Except.ok (setConcluida (novaTarefa db tarefa))
      ∧ (remover_tarefa tarefa.nome (adicionar_tarefa tarefa db).2).1
          = Except.ok ⟨"Tarefa removida com sucesso"⟩
      ∧ (db.length < 100 →
          ∀ l, (listar_tarefas 1 100 "nome" (adicionar_tarefa tarefa db).2).1
              = Except.ok l →
            novaTarefa db tarefa ∈ l)) := by
  constructor
  · rintro ⟨t, ht, he⟩
    have hsome : (db.find? (fun u => u.nome == tarefa.nome)).isSome := by
      rw [List.find?_isSome]
      exact ⟨t, ht, by simp [he]⟩
    rcases Option.isSome_iff_exists.mp hsome with ⟨u, hu⟩
    exact ⟨by simp [adicionar_tarefa, hu], rfl⟩
  · intro hfresh
    have hf : db.find? (fun u => u.nome == tarefa.nome) = none :=
      find?_nome_eq_none hfresh
    have heq : adicionar_tarefa tarefa db
        = (Except.ok (novaTarefa db tarefa), db ++ [novaTarefa db tarefa]) := by
      simp [adicionar_tarefa, hf]
    have hsnd : (adicionar_tarefa tarefa db).2 = db ++ [novaTarefa db tarefa] := by
      rw [heq]
    have hfind : (db ++ [novaTarefa db tarefa]).find?
        (fun u => u.nome == tarefa.nome) = some (novaTarefa db tarefa) := by
      rw [List.find?_append, hf]
      simp [novaTarefa]
    refine ⟨heq, ?_, ?_, ?_, ?_⟩
    · rw [hsnd]; exact List.mem_append_right _ (by simp)
    · rw [hsnd]
      simp [marcar_concluida, hfind]
    · rw [hsnd]
      simp [remover_tarefa, hfind]
    · intro hlen l hl
      rw [hsnd] at hl
      have hlen2 : (ordenar "nome" (db ++ [novaTarefa db tarefa])).length ≤ 100 := by
        rw [length_ordenar]
        simp
        omega
      simp only [listar_tarefas] at hl
      norm_num at hl
      rw [List.take_of_length_le (by simpa using hlen2)] at hl
      cases hl
      exact mem_ordenar.mpr (List.mem_append_right _ (by simp))

/-- C3: with valid parameters, List succeeds, returns at most size
    records, and a page at or past the end yields the empty sequence. -/
theorem listar_tarefas_bounds (db : Store) (page size : Int) (sort_by : String)
    (hp : 1 ≤ page) (hs1 : 1 ≤ size) (hs2 : size ≤ 100) :
    (listar_tarefas page size sort_by db).1.isOk = true
  ∧ (∀ l, (listar_tarefas page size sort_by db).1 = Except.ok l →
      l.length ≤ size.toNat)
  ∧ ((db.length : Int) ≤ (page - 1) * size →
      (listar_tarefas page size sort_by db).1 = Except.ok []) := by
  have h1 : ¬ page < 1 := by omega
  have h2 : ¬ (size < 1 ∨ 100 < size) := by omega
  refine ⟨?_, ?_, ?_⟩ <;> simp only [listar_tarefas] <;> rw [if_neg h1, if_neg h2]
  · rfl
  · intro l hl
    simp only [Except.ok.injEq] at hl
    subst hl
    rw [List.length_take]
    exact Nat.min_le_left _ _
  · intro hpast
    have hd : (ordenar sort_by db).length ≤ ((page - 1) * size).toNat := by
      rw [length_ordenar]
      omega
    rw [List.drop_eq_nil_of_le hd]
    simp

theorem ordenar_default {sort_by : String} (h1 : sort_by ≠ "nome")
    (h2 : sort_by ≠ "descricao") (h3 : sort_by ≠ "concluida") (db : Store) :
    ordenar sort_by db = db := by
  simp [ordenar, h1, h2, h3]

/-- C4 counterexample: a sort_by outside the enumerated set does not make
    the handler fail with a 400 error; the handler returns the records
    unsorted. -/
theorem listar_tarefas_invalid_sort_counterexample :
    (listar_tarefas 1 10 "invalido"
        [⟨1, "b", "y", false⟩, ⟨2, "a", "x", true⟩]).1
      = Except.ok [⟨1, "b", "y", false⟩, ⟨2, "a", "x", true⟩] := rfl

/-- C4 amended: page < 1 fails with the 400 invalid-page error and size
    outside [1,100] fails with the 400 invalid-size error, in both cases
    returning no records and leaving the store unchanged; a sort_by outside
    the enumerated set is rejected by the endpoint's declared regex
    validation before the handler runs, and the handler itself returns the
    requested window of the unsorted records rather than an error. -/
theorem listar_tarefas_param_validation (db : Store) (page size : Int)
    (sort_by : String) :
    (page < 1 →
      listar_tarefas page size sort_by db = (Except.error invalidPageError, db)
        ∧ invalidPageError.status = 400)
  ∧ (1 ≤ page → (size < 1 ∨ 100 < size) →
      listar_tarefas page size sort_by db = (Except.error invalidSizeError, db)
        ∧ invalidSizeError.status = 400)
  ∧ (sort_by ≠ "nome" → sort_by ≠ "descricao" → sort_by ≠ "concluida" →
      (listar_tarefas page size sort_by db).1.isOk = true →
      (listar_tarefas page size sort_by db).1
        = Except.ok ((db.drop ((page - 1) * size).toNat).take size.toNat)) := by
  refine ⟨?_, ?_, ?_⟩
  · intro h
    constructor
    · simp only [listar_tarefas]
      rw [if_pos h]
    · rfl
  · intro h1 h2
    constructor
    · simp only [listar_tarefas]
      rw [if_neg (by omega), if_pos h2]
    · rfl
  · intro h1 h2 h3 hok
    by_cases hp : page < 1
    · simp only [listar_tarefas] at hok
      rw [if_pos hp] at hok
      simp [Except.isOk, Except.toBool] at hok
    · by_cases hs : size < 1 ∨ 100 < size
      · simp only [listar_tarefas] at hok
        rw [if_neg hp, if_pos hs] at hok
        simp [Except.isOk, Except.toBool] at hok
      · simp only [listar_tarefas]
        rw [if_neg hp, if_neg hs, ordenar_default h1 h2 h3]

theorem ordenar_nome (db : Store) : ordenar "nome" db = db.mergeSort leNome := rfl

theorem ordenar_descricao (db : Store) :
    ordenar "descricao" db = db.mergeSort leDescricao := rfl

theorem ordenar_concluida (db : Store) :
    ordenar "concluida" db = db.mergeSort leConcluida := rfl

theorem pairwise_ordenar_nome (db : Store) :
    (ordenar "nome" db).Pairwise (fun a b => strLe a.nome b.nome = true) := by
  rw [ordenar_nome]
  exact List.sorted_mergeSort leNome_trans leNome_total db

theorem pairwise_ordenar_descricao (db : Store) :
    (ordenar "descricao" db).Pairwise
      (fun a b => strLe a.descricao b.descricao = true) := by
  rw [ordenar_descricao]
  exact List.sorted_mergeSort leDescricao_trans leDescricao_total db

theorem pairwise_ordenar_concluida (db : Store) :
    (ordenar "concluida" db).Pairwise
      (fun a b => a.concluida = true → b.concluida = true) := by
  rw [ordenar_concluida]
  refine (List.sorted_mergeSort leConcluida_trans leConcluida_total db).imp ?_
  intro a b h ha
  simp only [leConcluida, ha, Bool.not_true, Bool.false_or] at h
  exact h

theorem listar_result_slice (db : Store) (page size : Int) (sort_by : String)
    (hp : 1 ≤ page) (hs1 : 1 ≤ size) (hs2 : size ≤ 100) :
    (listar_tarefas page size sort_by db).1
      = Except.ok (((ordenar sort_by db).drop ((page - 1) * size).toNat).take
          size.toNat) := by
  simp only [listar_tarefas]
  rw [if_neg (by omega), if_neg (by omega)]

/-- C5: for each valid sort field the sequence List returns is ascending in
    that field (lexicographic for the string fields, false before true for
    the boolean), and any two records tied on the field keep their insertion
    order in the sorted collection (stable sort). -/
theorem listar_tarefas_sorted (db : Store) (page size : Int)
    (hp : 1 ≤ page) (hs1 : 1 ≤ size) (hs2 : size ≤ 100) :
    (∀ l, (listar_tarefas page size "nome" db).1 = Except.ok l →
        l.Pairwise (fun a b => strLe a.nome b.nome = true))
  ∧ (∀ l, (listar_tarefas page size "descricao" db).1 = Except.ok l →
        l.Pairwise (fun a b => strLe a.descricao b.descricao = true))
  ∧ (∀ l, (listar_tarefas page size "concluida" db).1 = Except.ok l →
        l.Pairwise (fun a b => a.concluida = true → b.concluida = true))
  ∧ (∀ u v, [u, v].Sublist db → u.nome = v.nome →
        [u, v].Sublist (ordenar "nome" db))
  ∧ (∀ u v, [u, v].Sublist db → u.descricao = v.descricao →
        [u, v].Sublist (ordenar "descricao" db))
  ∧ (∀ u v, [u, v].Sublist db → u.concluida = v.concluida →
        [u, v].Sublist (ordenar "concluida" db)) := by
  have hslice : ∀ (s : String) (l : List TarefaDB),
      (listar_tarefas page size s db).1 = Except.ok l →
      l.Sublist (ordenar s db) := by
    intro s l hl
    rw [listar_result_slice db page size s hp hs1 hs2] at hl
    simp only [Except.ok.injEq] at hl
    subst hl
    exact (List.take_sublist _ _).trans (List.drop_sublist _ _)
  refine ⟨?_, ?_, ?_, ?_, ?_, ?_⟩
  · intro l hl
    exact (pairwise_ordenar_nome db).sublist (hslice _ l hl)
  · intro l hl
    exact (pairwise_ordenar_descricao db).sublist (hslice _ l hl)
  · intro l hl
    exact (pairwise_ordenar_concluida db).sublist (hslice _ l hl)
  · intro u v hsub he
    rw [ordenar_nome]
    exact List.pair_sublist_mergeSort leNome_trans leNome_total
      (by simp [leNome, he, strLe_refl]) hsub
  · intro u v hsub he
    rw [ordenar_descricao]
    exact List.pair_sublist_mergeSort leDescricao_trans leDescricao_total
      (by simp [leDescricao, he, strLe_refl]) hsub
  · intro u v hsub he
    rw [ordenar_concluida]
    exact List.pair_sublist_mergeSort leConcluida_trans leConcluida_total
      (by simp [leConcluida, he]) hsub

/-- C6: Complete fails with the 404 not-found error exactly when no task
    has the given name; when one exists it returns the record with
    concluida set to true, and it is idempotent: a second call on the same
    name succeeds and leaves the store unchanged. -/
theorem marcar_concluida_spec (db : Store) (nome_tarefa : String) :
    ((∀ t ∈ db, t.nome ≠ nome_tarefa) →
      marcar_concluida nome_tarefa db = (Except.error notFoundError, db)
        ∧ notFoundError.status = 404)
  ∧ ((∃ t ∈ db, t.nome = nome_tarefa) →
      (∀ r, (marcar_concluida nome_tarefa db).1 = Except.ok r →
          r.concluida = true ∧ r.nome = nome_tarefa)
      ∧ (marcar_concluida nome_tarefa db).1.isOk = true
      ∧ (marcar_concluida nome_tarefa
            (marcar_concluida nome_tarefa db).2).1.isOk = true
      ∧ (marcar_concluida nome_tarefa (marcar_concluida nome_tarefa db).2).2
          = (marcar_concluida nome_tarefa db).2) := by
  constructor
  · intro h
    exact ⟨by simp [marcar_concluida, find?_nome_eq_none h], rfl⟩
  · rintro ⟨t, ht, he⟩
    have hsome : (db.find? (fun u => u.nome == nome_tarefa)).isSome := by
      rw [List.find?_isSome]
      exact ⟨t, ht, by simp [he]⟩
    rcases Option.isSome_iff_exists.mp hsome with ⟨u, hu⟩
    have hun : u.nome = nome_tarefa := by simpa using List.find?_some hu
    have hsnd : (marcar_concluida nome_tarefa db).2
        = updateFirst (fun v => v.nome == nome_tarefa) setConcluida db := by
      simp [marcar_concluida, hu]
    have hfind2 := find?_updateFirst nome_tarefa db u hu
    refine ⟨?_, ?_, ?_, ?_⟩
    · intro r hr
      simp only [marcar_concluida, hu] at hr
      simp only [Except.ok.injEq] at hr
      subst hr
      exact ⟨rfl, by simpa [setConcluida] using hun⟩
    · simp [marcar_concluida, hu, Except.isOk, Except.toBool]
    · rw [hsnd]
      simp [marcar_concluida, hfind2, Except.isOk, Except.toBool]
    · rw [hsnd]
      simp only [marcar_concluida, hfind2]
      exact updateFirst_idem nome_tarefa db

/-- C7: Delete fails with the 404 not-found error exactly when no task has
    the given name; when one exists (names being unique, as the schema's
    unique index guarantees) the record is removed, a subsequent List no
    longer contains it, and a subsequent Complete or Delete on the same
    name fails with the 404 not-found error. -/
theorem remover_tarefa_spec (db : Store) (nome_tarefa : String)
    (hnodup : (db.map TarefaDB.nome).Nodup) :
    ((∀ t ∈ db, t.nome ≠ nome_tarefa) →
      remover_tarefa nome_tarefa db = (Except.error notFoundError, db)
        ∧ notFoundError.status = 404)
  ∧ ((∃ t ∈ db, t.nome = nome_tarefa) →
      (remover_tarefa nome_tarefa db).1
          = Except.ok ⟨"Tarefa removida com sucesso"⟩
      ∧ (∀ t ∈ (remover_tarefa nome_tarefa db).2, t.nome ≠ nome_tarefa)
      ∧ (∀ page size sort_by l,
          (listar_tarefas page size sort_by
              (remover_tarefa nome_tarefa db).2).1 = Except.ok l →
          ∀ t ∈ l, t.nome ≠ nome_tarefa)
      ∧ (marcar_concluida nome_tarefa (remover_tarefa nome_tarefa db).2).1
          = Except.error notFoundError
      ∧ (remover_tarefa nome_tarefa (remover_tarefa nome_tarefa db).2).1
          = Except.error notFoundError) := by
  constructor
  · intro h
    exact ⟨by simp [remover_tarefa, find?_nome_eq_none h], rfl⟩
  · rintro ⟨t, ht, he⟩
    have hsome : (db.find? (fun u => u.nome == nome_tarefa)).isSome := by
      rw [List.find?_isSome]
      exact ⟨t, ht, by simp [he]⟩
    rcases Option.isSome_iff_exists.mp hsome with ⟨u, hu⟩
    have hsnd : (remover_tarefa nome_tarefa db).2
        = db.eraseP (fun v => v.nome == nome_tarefa) := by
      simp [remover_tarefa, hu]
    have hgone : ∀ t2 ∈ (remover_tarefa nome_tarefa db).2,
        t2.nome ≠ nome_tarefa := by
      rw [hsnd]
      exact eraseP_nome_ne nome_tarefa db hnodup
    have hfind2 : ((remover_tarefa nome_tarefa db).2).find?
        (fun v => v.nome == nome_tarefa) = none :=
      find?_nome_eq_none hgone
    refine ⟨by simp [remover_tarefa, hu], hgone, ?_, ?_, ?_⟩
    · intro page size sort_by l hl t2 htl
      by_cases hp : page < 1
      · simp only [listar_tarefas] at hl
        rw [if_pos hp] at hl
        simp at hl
      · by_cases hs : size < 1 ∨ 100 < size
        · simp only [listar_tarefas] at hl
          rw [if_neg hp, if_pos hs] at hl
          simp at hl
        · simp only [listar_tarefas] at hl
          rw [if_neg hp, if_neg hs] at hl
          simp only [Except.ok.injEq] at hl
          subst hl
          have hmem : t2 ∈ (remover_tarefa nome_tarefa db).2 := by
            have h1 := List.take_subset _ _ htl
            have h2 := List.drop_subset _ _ h1
            exact mem_ordenar.mp h2
          exact hgone t2 hmem
    · rw [hsnd] at hfind2 ⊢
      simp [marcar_concluida, hfind2]
    · rw [hsnd] at hfind2 ⊢
      simp [remover_tarefa, hfind2]

/-- Contract of the external bcrypt verifier for the one stored account:
    a password verifies against the stored admin hash exactly when it is
    the fixed demo password. -/
def AdminVerifies (env : AuthEnv) : Prop :=
  ∀ p, env.pwd_verify p env.admin_hash = true ↔ p = "admin123"

theorem verify_credentials_cases (env : AuthEnv) (henv : AdminVerifies env) :
    verify_credentials env none = Except.error unauthorizedError
  ∧ (∀ u p, u ≠ "admin" →
      verify_credentials env (some (u, p)) = Except.error unauthorizedError)
  ∧ (∀ p, p ≠ "admin123" →
      verify_credentials env (some ("admin", p)) = Except.error unauthorizedError)
  ∧ verify_credentials env (some ("admin", "admin123")) = Except.ok "admin" := by
  refine ⟨rfl, ?_, ?_, ?_⟩
  · intro u p hu
    simp [verify_credentials, USERS_DB, hu]
  · intro p hp
    have hv : env.pwd_verify p env.admin_hash = false := by
      rw [Bool.eq_false_iff]
      intro h
      exact hp ((henv p).mp h)
    simp [verify_credentials, USERS_DB, hv]
  · have hv : env.pwd_verify "admin123" env.admin_hash = true :=
      (henv "admin123").mpr rfl
    simp [verify_credentials, USERS_DB, hv]

/-- C8: every request to any of the four endpoints with missing
    credentials, an unknown username, or a password that does not verify
    against the stored admin hash is rejected with the 401 challenge
    response and leaves the store unchanged; a request with the admin
    username and the correct password proceeds to the plain handler. -/
theorem auth_spec (env : AuthEnv) (db : Store) (henv : AdminVerifies env) :
    (unauthorizedError.status = 401
      ∧ ("WWW-Authenticate", "Basic") ∈ unauthorizedError.headers)
  ∧ (∀ tarefa, post_tarefas env none tarefa db
        = (Except.error unauthorizedError, db))
  ∧ (∀ page size sort_by, get_tarefas env none page size sort_by db
        = (Except.error unauthorizedError, db))
  ∧ (∀ nome, put_tarefas env none nome db
        = (Except.error unauthorizedError, db))
  ∧ (∀ nome, delete_tarefas env none nome db
        = (Except.error unauthorizedError, db))
  ∧ (∀ u p, u ≠ "admin" →
      (∀ tarefa, post_tarefas env (some (u, p)) tarefa db
          = (Except.error unauthorizedError, db))
      ∧ (∀ page size sort_by, get_tarefas env (some (u, p)) page size sort_by db
          = (Except.error unauthorizedError, db))
      ∧ (∀ nome, put_tarefas env (some (u, p)) nome db
          = (Except.error unauthorizedError, db))
      ∧ (∀ nome, delete_tarefas env (some (u, p)) nome db
          = (Except.error unauthorizedError, db)))
  ∧ (∀ p, p ≠ "admin123" →
      (∀ tarefa, post_tarefas env (some ("admin", p)) tarefa db
          = (Except.error unauthorizedError, db))
      ∧ (∀ page size sort_by,
          get_tarefas env (some ("admin", p)) page size sort_by db
            = (Except.error unauthorizedError, db))
      ∧ (∀ nome, put_tarefas env (some ("admin", p)) nome db
          = (Except.error unauthorizedError, db))
      ∧ (∀ nome, delete_tarefas env (some ("admin", p)) nome db
          = (Except.error unauthorizedError, db)))
  ∧ ((∀ tarefa, post_tarefas env (some ("admin", "admin123")) tarefa db
        = adicionar_tarefa tarefa db)
      ∧ (∀ page size sort_by,
          get_tarefas env (some ("admin", "admin123")) page size sort_by db
            = listar_tarefas page size sort_by db)
      ∧ (∀ nome, put_tarefas env (some ("admin", "admin123")) nome db
          = marcar_concluida nome db)
      ∧ (∀ nome, delete_tarefas env (some ("admin", "admin123")) nome db
          = remover_tarefa nome db)) := by
  obtain ⟨h0, h1, h2, h3⟩ := verify_credentials_cases env henv
  refine ⟨⟨rfl, by simp [unauthorizedError]⟩, ?_, ?_, ?_, ?_, ?_, ?_, ?_⟩
  · intro tarefa
    simp [post_tarefas, h0]
  · intro page size sort_by
    simp [get_tarefas, h0]
  · intro nome
    simp [put_tarefas, h0]
  · intro nome
    simp [delete_tarefas, h0]
  · intro u p hu
    exact ⟨fun tarefa => by simp [post_tarefas, h1 u p hu],
      fun page size sort_by => by simp [get_tarefas, h1 u p hu],
      fun nome => by simp [put_tarefas, h1 u p hu],
      fun nome => by simp [delete_tarefas, h1 u p hu]⟩
  · intro p hp
    exact ⟨fun tarefa => by simp [post_tarefas, h2 p hp],
      fun page size sort_by => by simp [get_tarefas, h2 p hp],
      fun nome => by simp [put_tarefas, h2 p hp],
      fun nome => by simp [delete_tarefas, h2 p hp]⟩
  · exact ⟨fun tarefa => by simp [post_tarefas, h3],
      fun page size sort_by => by simp [get_tarefas, h3],
      fun nome => by simp [put_tarefas, h3],
      fun nome => by simp [delete_tarefas, h3]⟩

/-- C9: the completed flag defaults to false only when the request body
    omits it; a create that explicitly supplies completed = true on a
    fresh name stores the record already completed. -/
theorem adicionar_concluida_true (db : Store) (n d : String)
    (hfresh : ∀ t ∈ db, t.nome ≠ n) :
    ({ nome := n, descricao := d : Tarefa }).concluida = false
  ∧ (adicionar_tarefa ⟨n, d, true⟩ db).1
      = Except.ok (novaTarefa db ⟨n, d, true⟩)
  ∧ (novaTarefa db ⟨n, d, true⟩).concluida = true
  ∧ novaTarefa db ⟨n, d, true⟩ ∈ (adicionar_tarefa ⟨n, d, true⟩ db).2 := by
  have hf : db.find? (fun u => u.nome == n) = none := find?_nome_eq_none hfresh
  refine ⟨rfl, ?_, rfl, ?_⟩
  · simp [adicionar_tarefa, hf]
  · simp [adicionar_tarefa, hf]

/-- C10: a successful Delete always returns the fixed confirmation
    message, never the removed record. -/
theorem remover_tarefa_message (db : Store) (nome_tarefa : String)
    (hex : ∃ t ∈ db, t.nome = nome_tarefa) :
    (remover_tarefa nome_tarefa db).1
      = Except.ok ⟨"Tarefa removida com sucesso"⟩ := by
  rcases hex with ⟨t, ht, he⟩
  have hsome : (db.find? (fun u => u.nome == nome_tarefa)).isSome := by
    rw [List.find?_isSome]
    exact ⟨t, ht, by simp [he]⟩
  rcases Option.isSome_iff_exists.mp hsome with ⟨u, hu⟩
  simp [remover_tarefa, hu]

def envDemo : AuthEnv := ⟨fun p h => p == "admin123" && h == "h0", "h0"⟩

theorem reachable_nodup_witness :
    (((adicionar_tarefa ⟨"a", "x", false⟩ []).2).map TarefaDB.nome).Nodup :=
  reachable_nodup _ (Reachable.create ⟨"a", "x", false⟩ [] Reachable.empty)

theorem listar_tarefas_bounds_witness :
    (listar_tarefas 2 5 "nome" [⟨1, "a", "x", false⟩]).1.isOk = true
  ∧ (listar_tarefas 2 5 "nome" [⟨1, "a", "x", false⟩]).1 = Except.ok [] :=
  ⟨(listar_tarefas_bounds [⟨1, "a", "x", false⟩] 2 5 "nome" (by norm_num)
      (by norm_num) (by norm_num)).1,
   (listar_tarefas_bounds [⟨1, "a", "x", false⟩] 2 5 "nome" (by norm_num)
      (by norm_num) (by norm_num)).2.2 (by norm_num)⟩

theorem listar_tarefas_param_validation_witness :
    (listar_tarefas 0 5 "nome" [⟨1, "a", "x", false⟩]
        = (Except.error invalidPageError, [⟨1, "a", "x", false⟩])
      ∧ invalidPageError.status = 400)
  ∧ (listar_tarefas 1 0 "nome" [⟨1, "a", "x", false⟩]
        = (Except.error invalidSizeError, [⟨1, "a", "x", false⟩])
      ∧ invalidSizeError.status = 400)
  ∧ (listar_tarefas 1 10 "invalido" [⟨1, "a", "x", false⟩]).1
      = Except.ok [⟨1, "a", "x", false⟩] :=
  ⟨(listar_tarefas_param_validation [⟨1, "a", "x", false⟩] 0 5 "nome").1
      (by norm_num),
   (listar_tarefas_param_validation [⟨1, "a", "x", false⟩] 1 0 "nome").2.1
      (by norm_num) (by norm_num),
   (listar_tarefas_param_validation [⟨1, "a", "x", false⟩] 1 10 "invalido").2.2
      (by decide) (by decide) (by decide) rfl⟩

theorem marcar_concluida_spec_witness :
    (marcar_concluida "b" [⟨1, "a", "x", false⟩]
        = (Except.error notFoundError, [⟨1, "a", "x", false⟩])
      ∧ notFoundError.status = 404)
  ∧ (marcar_concluida "a" [⟨1, "a", "x", false⟩]).1.isOk = true
  ∧ (marcar_concluida "a" (marcar_concluida "a" [⟨1, "a", "x", false⟩]).2).2
      = (marcar_concluida "a" [⟨1, "a", "x", false⟩]).2 :=
  ⟨(marcar_concluida_spec [⟨1, "a", "x", false⟩] "b").1 (by decide),
   ((marcar_concluida_spec [⟨1, "a", "x", false⟩] "a").2
      ⟨⟨1, "a", "x", false⟩, by simp, rfl⟩).2.1,
   ((marcar_concluida_spec [⟨1, "a", "x", false⟩] "a").2
      ⟨⟨1, "a", "x", false⟩, by simp, rfl⟩).2.2.2⟩

theorem remover_tarefa_spec_witness :
    (remover_tarefa "a" [⟨1, "a", "x", false⟩]).1
        = Except.ok ⟨"Tarefa removida com sucesso"⟩
  ∧ (marcar_concluida "a" (remover_tarefa "a" [⟨1, "a", "x", false⟩]).2).1
      = Except.error notFoundError
  ∧ (remover_tarefa "a" (remover_tarefa "a" [⟨1, "a", "x", false⟩]).2).1
      = Except.error notFoundError :=
  ⟨((remover_tarefa_spec [⟨1, "a", "x", false⟩] "a" (by decide)).2
      ⟨⟨1, "a", "x", false⟩, by simp, rfl⟩).1,
   ((remover_tarefa_spec [⟨1, "a", "x", false⟩] "a" (by decide)).2
      ⟨⟨1, "a", "x", false⟩, by simp, rfl⟩).2.2.2.1,
   ((remover_tarefa_spec [⟨1, "a", "x", false⟩] "a" (by decide)).2
      ⟨⟨1, "a", "x", false⟩, by simp, rfl⟩).2.2.2.2⟩

theorem auth_spec_witness :
    post_tarefas envDemo none ⟨"a", "x", false⟩ []
        = (Except.error unauthorizedError, [])
  ∧ put_tarefas envDemo (some ("user", "pw")) "a" []
      = (Except.error unauthorizedError, [])
  ∧ delete_tarefas envDemo (some ("admin", "wrong")) "a" []
      = (Except.error unauthorizedError, [])
  ∧ get_tarefas envDemo (some ("admin", "admin123")) 1 10 "nome" []
      = listar_tarefas 1 10 "nome" [] := by
  have henv : AdminVerifies envDemo := by
    intro p
    simp [envDemo]
  exact ⟨(auth_spec envDemo [] henv).2.1 ⟨"a", "x", false⟩,
    ((auth_spec envDemo [] henv).2.2.2.2.2.1 "user" "pw" (by decide)).2.2.1 "a",
    ((auth_spec envDemo [] henv).2.2.2.2.2.2.1 "wrong" (by decide)).2.2.2 "a",
    (auth_spec envDemo [] henv).2.2.2.2.2.2.2.2.1 1 10 "nome"⟩

theorem adicionar_concluida_true_witness :
    ({ nome := "a", descricao := "x" : Tarefa }).concluida = false
  ∧ (adicionar_tarefa ⟨"a", "x", true⟩ []).1
      = Except.ok (novaTarefa [] ⟨"a", "x", true⟩)
  ∧ (novaTarefa [] ⟨"a", "x", true⟩).concluida = true :=
  ⟨(adicionar_concluida_true [] "a" "x" (by simp)).1,
   (adicionar_concluida_true [] "a" "x" (by simp)).2.1,
   (adicionar_concluida_true [] "a" "x" (by simp)).2.2.1⟩

theorem remover_tarefa_message_witness :
    (remover_tarefa "b" [⟨1, "b", "z", true⟩]).1
      = Except.ok ⟨"Tarefa removida com sucesso"⟩ :=
  remover_tarefa_message [⟨1, "b", "z", true⟩] "b" ⟨⟨1, "b", "z", true⟩, by simp, rfl⟩

theorem adicionar_tarefa_spec_witness :
    (adicionar_tarefa ⟨"a", "y", true⟩ [⟨1, "a", "x", false⟩]
        = (Except.error duplicateError, [⟨1, "a", "x", false⟩])
      ∧ duplicateError.status = 400)
  ∧ (marcar_concluida "b"
        (adicionar_tarefa ⟨"b", "y", true⟩ [⟨1, "a", "x", false⟩]).2).1
      = Except.ok (setConcluida (novaTarefa [⟨1, "a", "x", false⟩] ⟨"b", "y", true⟩))
  ∧ (remover_tarefa "b"
        (adicionar_tarefa ⟨"b", "y", true⟩ [⟨1, "a", "x", false⟩]).2).1
      = Except.ok ⟨"Tarefa removida com sucesso"⟩
  ∧ novaTarefa [⟨1, "a", "x", false⟩] ⟨"b", "y", true⟩
      ∈ [⟨1, "a", "x", false⟩, ⟨2, "b", "y", true⟩] := by
  refine ⟨(adicionar_tarefa_spec [⟨1, "a", "x", false⟩] ⟨"a", "y", true⟩).1
      ⟨⟨1, "a", "x", false⟩, by simp, rfl⟩, ?_, ?_, ?_⟩
  · exact ((adicionar_tarefa_spec [⟨1, "a", "x", false⟩] ⟨"b", "y", true⟩).2
      (by decide)).2.2.1
  · exact ((adicionar_tarefa_spec [⟨1, "a", "x", false⟩] ⟨"b", "y", true⟩).2
      (by decide)).2.2.2.1
  · have hord : ordenar "nome" [⟨1, "a", "x", false⟩, ⟨2, "b", "y", true⟩]
        = [⟨1, "a", "x", false⟩, ⟨2, "b", "y", true⟩] := by
      rw [ordenar_nome]
      exact List.mergeSort_of_sorted (List.pairwise_pair.mpr (by decide))
    have hl : (listar_tarefas 1 100 "nome"
        (adicionar_tarefa ⟨"b", "y", true⟩ [⟨1, "a", "x", false⟩]).2).1
        = Except.ok [⟨1, "a", "x", false⟩, ⟨2, "b", "y", true⟩] := by
      show (listar_tarefas 1 100 "nome"
          [⟨1, "a", "x", false⟩, ⟨2, "b", "y", true⟩]).1 = _
      rw [listar_result_slice [⟨1, "a", "x", false⟩, ⟨2, "b", "y", true⟩]
          1 100 "nome" (by norm_num) (by norm_num) (by norm_num), hord]
      rfl
    exact ((adicionar_tarefa_spec [⟨1, "a", "x", false⟩] ⟨"b", "y", true⟩).2
      (by decide)).2.2.2.2 (by norm_num) _ hl

theorem listar_tarefas_sorted_witness :
    [(⟨1, "a", "x", true⟩ : TarefaDB), ⟨2, "a", "y", false⟩].Pairwise
        (fun a b => strLe a.nome b.nome = true)
  ∧ [(⟨1, "a", "x", true⟩ : TarefaDB), ⟨2, "a", "y", false⟩].Sublist
      (ordenar "nome" [⟨1, "a", "x", true⟩, ⟨2, "a", "y", false⟩]) := by
  have hord : ordenar "nome" [⟨1, "a", "x", true⟩, ⟨2, "a", "y", false⟩]
      = [⟨1, "a", "x", true⟩, ⟨2, "a", "y", false⟩] := by
    rw [ordenar_nome]
    exact List.mergeSort_of_sorted (List.pairwise_pair.mpr (by decide))
  have hl : (listar_tarefas 1 10 "nome"
      [⟨1, "a", "x", true⟩, ⟨2, "a", "y", false⟩]).1
      = Except.ok [⟨1, "a", "x", true⟩, ⟨2, "a", "y", false⟩] := by
    rw [listar_result_slice [⟨1, "a", "x", true⟩, ⟨2, "a", "y", false⟩]
        1 10 "nome" (by norm_num) (by norm_num) (by norm_num), hord]
    rfl
  exact ⟨(listar_tarefas_sorted [⟨1, "a", "x", true⟩, ⟨2, "a", "y", false⟩]
      1 10 (by norm_num) (by norm_num) (by norm_num)).1 _ hl,
    (listar_tarefas_sorted [⟨1, "a", "x", true⟩, ⟨2, "a", "y", false⟩]
      1 10 (by norm_num) (by norm_num) (by norm_num)).2.2.2.1
      ⟨1, "a", "x", true⟩ ⟨2, "a", "y", false⟩ (List.Sublist.refl _) rfl⟩
